import Mathlib

/-!
Verification development for the MediBridge case-collaboration application.

The definitions below are a shallow embedding of the Next.js API route
handlers, translated statement-by-statement from the TypeScript source:

* `src/app/api/mdts/[id]/messages/route.ts` — message list/post, MDT
  creation (with the specialty-matching invitation fan-out), fetching a
  single invitation, and responding to an invitation.
* `src/app/api/mdt/invitations/route.ts` — pending-invitation list,
  direct invite creation, and the collection-level status PATCH.
* `src/app/api/auth/signup/route.ts` — registration with zod validation.

The Prisma-backed relational store is modelled as an explicit `DB` record
of rows; each handler becomes a pure function from the pre-state to a
response (`Except ApiError …`) together with the post-state.  A Prisma
`$transaction` callback is embedded as a single pure state transformer,
so its writes are atomic by construction, exactly as in the database;
reads and checks the handler performs *outside* the `$transaction` call
are embedded outside that transformer.  Record ids (cuids in the store)
are modelled as `Nat`.  External collaborators (bcrypt hashing, session
lookup, zod's email regex) are modelled by opaque-but-executable
stand-ins, documented where they occur.
-/

namespace MediBridge

/-- `UserType` enum of the Prisma schema (`LOCAL` and `EXTERNAL` users). -/
inductive UserType where
  | LOCAL
  | EXTERNAL
deriving DecidableEq, Repr

/-- `InvitationStatus` enum of the Prisma schema. -/
inductive InvitationStatus where
  | PENDING
  | ACCEPTED
  | DECLINED
  | CANCELLED
deriving DecidableEq, Repr

/-- `MDTStatus` enum of the Prisma schema. -/
inductive MDTStatus where
  | ACTIVE
  | COMPLETED
  | ARCHIVED
deriving DecidableEq, Repr

/-- A `User` row.  `specialties` holds the ids of the connected
`Specialty` rows, in stored order; `password` stores the bcrypt hash,
modelled here as the opaque string handed to the create call (hashing is
an out-of-scope collaborator and the value is never inspected). -/
structure User where
  id : Nat
  firstName : String
  lastName : String
  email : String
  password : String
  userType : UserType
  specialties : List Nat
  hospital : Option String := none
  referralCode : Option String := none
  professionalRegistrationNumber : Option String := none
  referredById : Option Nat := none
deriving DecidableEq, Repr

/-- An `MDT` row together with its many-to-many `members` relation
(member user ids). -/
structure MDT where
  id : Nat
  name : String
  creatorId : Nat
  status : MDTStatus
  memberIds : List Nat
deriving DecidableEq, Repr

/-- An `MDTSpecialty` row: one required-specialty slot of an MDT, with the
compound unique key `(mdtId, specialtyId)`. -/
structure MDTSpecialty where
  mdtId : Nat
  specialtyId : Nat
  filled : Bool
deriving DecidableEq, Repr

/-- An `MDTInvitation` row.  `specialtyId` is the nullable specialty
foreign key (`null` is `none`). -/
structure Invitation where
  id : Nat
  mdtId : Nat
  senderId : Nat
  receiverId : Nat
  specialtyId : Option Nat
  status : InvitationStatus
  createdAt : Nat
deriving DecidableEq, Repr

/-- A `Message` row. -/
structure Message where
  id : Nat
  mdtId : Nat
  userId : Nat
  content : String
  createdAt : Nat
deriving DecidableEq, Repr

/-- A `Medication` row, owned by a patient profile. -/
structure Medication where
  name : String
  dosage : String
deriving DecidableEq, Repr

/-- A `PatientProfile` row (owned 1:1 by its MDT) with its medications. -/
structure PatientProfile where
  mdtId : Nat
  age : Nat
  gender : String
  uniqueId : String
  medicalHistory : String
  caseSummary : String
  medications : List Medication
deriving DecidableEq, Repr

/-- The relational store: one list of rows per table. -/
structure DB where
  users : List User
  mdts : List MDT
  mdtSpecialties : List MDTSpecialty
  invitations : List Invitation
  messages : List Message
  patientProfiles : List PatientProfile
deriving DecidableEq, Repr

/-- A JSON error response: HTTP status code plus the `error` message, the
shape every handler returns on failure (`NextResponse.json({error}, {status})`).
The spec's taxonomy maps onto these: 400 with a state-precondition message
is `ConflictError`, 400 with a malformed-input message is
`ValidationError`, 403 is `PermissionError`, 404 is `NotFoundError`. -/
structure ApiError where
  status : Nat
  message : String
deriving DecidableEq, Repr

/-- Whether an endpoint result is a success response. -/
def isSuccess : Except ApiError α → Bool
  | .ok _ => true
  | .error _ => false

/-- JavaScript string truthiness for the `!content` check: a string is
falsy exactly when it is empty. -/
def jsFalsy (s : String) : Bool := s = ""

/-- The whitespace class of JavaScript `String.prototype.trim`
(restricted to the ASCII whitespace characters, which is all the
development ever trims). -/
def jsWhitespaceChar (c : Char) : Bool :=
  c = ' ' || c = '\t' || c = '\n' || c = '\r' || c = '\x0b' || c = '\x0c'

/-- JavaScript `content.trim()`: strip leading and trailing whitespace.
(Lean's own `String.trim` is avoided because its `Substring` internals do
not reduce in the kernel.) -/
def jsTrim (s : String) : String :=
  ⟨((s.data.dropWhile jsWhitespaceChar).reverse.dropWhile jsWhitespaceChar).reverse⟩

/-- `GET /api/mdts/[id]/messages` (messages route, lines 10–81): after the
session/user lookup (the caller is `userId`), check the MDT exists and the
caller is a member, then return the MDT's messages ordered by `createdAt`
ascending. -/
def listMessages (db : DB) (userId mdtId : Nat) : Except ApiError (List Message) :=
  match db.mdts.find? (fun m => m.id = mdtId) with
  | none => .error ⟨404, "MDT not found"⟩
  | some mdt =>
    if userId ∈ mdt.memberIds then
      .ok ((db.messages.filter (fun m => m.mdtId = mdtId)).mergeSort
            (fun a b => a.createdAt ≤ b.createdAt))
    else .error ⟨403, "Not authorized to view messages for this MDT"⟩

/-- `POST /api/mdts/[id]/messages` (messages route, lines 84–175): validate
the content (non-empty and at most 2000 characters after trimming — these
checks run before the MDT/membership lookup, as in the source), then check
the MDT exists and the caller is a member, then create the message with
the trimmed content.  `now` is the row's `createdAt` and `msgId` the fresh
id the store assigns. -/
def postMessage (db : DB) (userId mdtId : Nat) (content : String)
    (now msgId : Nat) : Except ApiError Message × DB :=
  if jsFalsy content || (jsTrim content).length = 0 then
    (.error ⟨400, "Message content is required"⟩, db)
  else if (jsTrim content).length > 2000 then
    (.error ⟨400, "Message content is too long (max 2000 characters)"⟩, db)
  else
    match db.mdts.find? (fun m => m.id = mdtId) with
    | none => (.error ⟨404, "MDT not found"⟩, db)
    | some mdt =>
      if userId ∈ mdt.memberIds then
        let msg : Message :=
          { id := msgId, mdtId := mdtId, userId := userId
            content := jsTrim content, createdAt := now }
        (.ok msg, { db with messages := db.messages ++ [msg] })
      else (.error ⟨403, "Not authorized to send messages to this MDT"⟩, db)

/-- Prisma `members: { connect: {id} }` on the MDT↔User relation: a no-op
when the user is already connected, otherwise it adds the link. -/
def connectMember (memberIds : List Nat) (userId : Nat) : List Nat :=
  if userId ∈ memberIds then memberIds else memberIds ++ [userId]

/-- The `externalDoctors` filter of the MDT-creation transaction
(messages route, lines 368–383): EXTERNAL users having at least one
specialty among the required ones. -/
def matchesRequired (required : List Nat) (u : User) : Bool :=
  u.userType = UserType.EXTERNAL && u.specialties.any (fun s => required.contains s)

/-- The invitation fan-out of the MDT-creation transaction (messages
route, lines 385–403): one PENDING invitation per matching external
doctor, whose specialty is the doctor's *first* specialty that appears in
the required list (`doctor.specialties.find(...)`); fresh ids are assigned
from `base` upward and `createdAt` is the transaction time `now`. -/
def mkInvitations (newId senderId : Nat) (required : List Nat) (now : Nat) :
    Nat → List User → List Invitation
  | _, [] => []
  | base, d :: ds =>
      { id := base, mdtId := newId, senderId := senderId, receiverId := d.id
        specialtyId := (d.specialties.find? (fun s => required.contains s))
        status := InvitationStatus.PENDING, createdAt := now } ::
      mkInvitations newId senderId required now (base + 1) ds

/-- The request body of `POST /api/mdts` (messages route, lines 197–202). -/
structure CreateMDTBody where
  name : String
  age : Nat
  gender : String
  uniqueId : String
  medicalHistory : String
  caseSummary : String
  medications : List Medication
  localDoctors : List Nat
  requiredSpecialties : List Nat
deriving DecidableEq, Repr

/-- The `prisma.$transaction` callback of `POST /api/mdts` (messages
route, lines 313–445), as one all-or-nothing step: create the MDT row
with status ACTIVE, connect the creator and the listed local doctors as
members, create the patient profile with its medications, create one
unfilled `MDTSpecialty` row per required specialty, and fan out the
matching invitations.  The two store-level failure modes are modelled:
`connect` on a user id that does not exist throws (Prisma P2025), and a
duplicate id in `requiredSpecialties` violates the `(mdtId, specialtyId)`
unique key; either aborts the whole transaction. -/
def createMDTTx (db : DB) (creator : User) (body : CreateMDTBody)
    (newId invBase now : Nat) : Except ApiError (MDT × DB) :=
  if ¬ body.localDoctors.all (fun i => db.users.any (fun u => u.id = i)) then
    .error ⟨500, "Transaction error: record to connect not found"⟩
  else if ¬ body.requiredSpecialties.Nodup then
    .error ⟨500, "Transaction error: unique constraint failed on mdtId_specialtyId"⟩
  else
    let newMDT : MDT :=
      { id := newId, name := body.name, creatorId := creator.id
        status := MDTStatus.ACTIVE
        memberIds := (body.localDoctors).foldl connectMember (connectMember [] creator.id) }
    let profile : PatientProfile :=
      { mdtId := newId, age := body.age, gender := body.gender
        uniqueId := body.uniqueId, medicalHistory := body.medicalHistory
        caseSummary := body.caseSummary, medications := body.medications }
    let slots := body.requiredSpecialties.map
      (fun sid => ({ mdtId := newId, specialtyId := sid, filled := false } : MDTSpecialty))
    let externalDoctors := db.users.filter (matchesRequired body.requiredSpecialties)
    let invs := mkInvitations newId creator.id body.requiredSpecialties now invBase externalDoctors
    .ok (newMDT,
      { db with
        mdts := db.mdts ++ [newMDT]
        patientProfiles := db.patientProfiles ++ [profile]
        mdtSpecialties := db.mdtSpecialties ++ slots
        invitations := db.invitations ++ invs })

/-- `POST /api/mdts` (messages route, lines 281–461): after the session
and user lookup (`creator`), only LOCAL users may create an MDT; the rest
of the work happens inside one `$transaction`, so on any failure the
pre-state is returned unchanged. -/
def createMDT (db : DB) (creator : User) (body : CreateMDTBody)
    (newId invBase now : Nat) : Except ApiError MDT × DB :=
  if creator.userType ≠ UserType.LOCAL then
    (.error ⟨403, "Only local users can create MDTs"⟩, db)
  else
    match createMDTTx db creator body newId invBase now with
    | .error e => (.error e, db)
    | .ok (mdt, db') => (.ok mdt, db')

/-- `prisma.mDTInvitation.findUnique({where: {id}})`. -/
def findInvitation (db : DB) (invId : Nat) : Option Invitation :=
  db.invitations.find? (fun i => i.id = invId)

/-- The pre-transaction part of `PATCH /api/mdts/[id]/messages`'s
invitation-respond handler (messages route, lines 598–658): validate the
requested status, look the invitation up, check the caller is the
receiver, check the invitation is still PENDING, and — for ACCEPTED —
check that the invitation's specialty slot on its MDT is still unfilled.
All of this runs *before* the `$transaction` call in the source. -/
def respondCheck (db : DB) (userId invId : Nat) (status : InvitationStatus) :
    Except ApiError Invitation :=
  if status ≠ InvitationStatus.ACCEPTED ∧ status ≠ InvitationStatus.DECLINED then
    .error ⟨400, "Invalid status"⟩
  else
    match findInvitation db invId with
    | none => .error ⟨404, "Invitation not found"⟩
    | some inv =>
      if inv.receiverId ≠ userId then
        .error ⟨403, "Not authorized to respond to this invitation"⟩
      else if inv.status ≠ InvitationStatus.PENDING then
        .error ⟨400, "Invitation has already been responded to"⟩
      else
        let requiredSpecialty := (db.mdtSpecialties.filter
            (fun rs => rs.mdtId = inv.mdtId)).find?
          (fun rs => inv.specialtyId = some rs.specialtyId && !rs.filled)
        if status = InvitationStatus.ACCEPTED ∧ requiredSpecialty = none then
          .error ⟨400, "This specialty position has already been filled"⟩
        else .ok inv

/-- Row transformer of `mDTInvitation.update({where: {id}, data: {status}})`:
set the status of the row with the given id. -/
def setStatusIfId (invId : Nat) (status : InvitationStatus) (i : Invitation) : Invitation :=
  if i.id = invId then { i with status := status } else i

/-- Row transformer of `mDT.update({where: {id}, data: {members: {connect}}})`:
connect the user to the MDT with the given id. -/
def addMemberIfMdt (mdtId userId : Nat) (m : MDT) : MDT :=
  if m.id = mdtId then { m with memberIds := connectMember m.memberIds userId } else m

/-- Row transformer of `mDTSpecialty.update({where: {mdtId_specialtyId}, data:
{filled: true}})`: fill the slot matching the compound key. -/
def fillSlotIfKey (mdtId : Nat) (specialtyId : Option Nat) (rs : MDTSpecialty) : MDTSpecialty :=
  if rs.mdtId = mdtId ∧ specialtyId = some rs.specialtyId then
    { rs with filled := true } else rs

/-- Row transformer of the `updateMany` cancelling every *other* PENDING
invitation of the same `(MDT, specialty)` pair. -/
def cancelOtherPending (mdtId : Nat) (specialtyId : Option Nat) (invId : Nat)
    (i : Invitation) : Invitation :=
  if i.mdtId = mdtId ∧ i.specialtyId = specialtyId ∧
      i.status = InvitationStatus.PENDING ∧ i.id ≠ invId then
    { i with status := InvitationStatus.CANCELLED } else i

/-- The `$transaction` callback of the invitation-respond handler
(messages route, lines 661–715), as one atomic state transformer: set the
invitation's status; when accepting, additionally connect the responder
to the MDT's members, mark the `(mdtId, specialtyId)` slot filled, and
set every *other* still-PENDING invitation for the same `(MDT, specialty)`
pair to CANCELLED.  `inv` is the row read before the transaction. -/
def respondTx (db : DB) (userId invId : Nat) (inv : Invitation)
    (status : InvitationStatus) : DB :=
  let db1 := { db with invitations := (db.invitations.map (setStatusIfId invId status)) }
  if status = InvitationStatus.ACCEPTED then
    let db2 := { db1 with mdts := (db1.mdts.map (addMemberIfMdt inv.mdtId userId)) }
    let db3 := { db2 with mdtSpecialties :=
      (db2.mdtSpecialties.map (fillSlotIfKey inv.mdtId inv.specialtyId)) }
    { db3 with invitations :=
      (db3.invitations.map (cancelOtherPending inv.mdtId inv.specialtyId invId)) }
  else db1

/-- `PATCH /api/mdts/[id]/messages` (respond to an invitation): the
pre-transaction checks followed, on success, by exactly one application
of the transaction `respondTx`; on failure the state is unchanged. -/
def respond (db : DB) (userId invId : Nat) (status : InvitationStatus) :
    Except ApiError Invitation × DB :=
  match respondCheck db userId invId status with
  | .error e => (.error e, db)
  | .ok inv => (.ok { inv with status := status }, respondTx db userId invId inv status)

/-- The schedule in which two respond(ACCEPTED) calls both run their
pre-transaction checks against the same initial state before either
transaction commits — a legal interleaving precisely because the source
performs the filled-slot check before its `$transaction` call.  Returns
the final state when both checks pass. -/
def respondConcurrent (db : DB) (u1 i1 u2 i2 : Nat) : Option DB :=
  match respondCheck db u1 i1 InvitationStatus.ACCEPTED,
        respondCheck db u2 i2 InvitationStatus.ACCEPTED with
  | .ok a, .ok b =>
      some (respondTx (respondTx db u1 i1 a InvitationStatus.ACCEPTED)
              u2 i2 b InvitationStatus.ACCEPTED)
  | _, _ => none

/-- `PATCH /api/mdt/invitations` (invitations route, lines 178–262): the
collection-level status update.  After the session/user lookup it runs
`prisma.mDTInvitation.update({where: {id, receiverId}, data: {status}})`
directly — with *no* check of the requested status value and *no* check
that the invitation is still PENDING — and, when the new status is
ACCEPTED, connects the caller to the MDT's members.  A missing row for
the filtered unique `where` throws Prisma P2025, surfaced by the catch
block as a 500. -/
def invitationsPatch (db : DB) (userId invId : Nat) (status : InvitationStatus) :
    Except ApiError Invitation × DB :=
  match db.invitations.find? (fun i => i.id = invId ∧ i.receiverId = userId) with
  | none => (.error ⟨500, "Failed to update invitation"⟩, db)
  | some inv =>
    let db1 := { db with invitations := (db.invitations.map (setStatusIfId invId status)) }
    let db2 :=
      if status = InvitationStatus.ACCEPTED then
        { db1 with mdts := (db1.mdts.map (addMemberIfMdt inv.mdtId userId)) }
      else db1
    (.ok { inv with status := status }, db2)

/-- `GET /api/mdts/[id]/messages`'s single-invitation handler (messages
route, lines 471–585): look the invitation up with its MDT (members) and
sender included, then run the source's visibility check verbatim: the
caller may view when `invitation.mdt.members.some(m => m.id === user.id)
|| invitation.sender.firstName` — the second disjunct being JavaScript
string truthiness of the *sender's first name*, not a comparison with the
caller — and otherwise only when a row with this id and
`receiverId = user.id` exists.  The included `mdt` and `sender` relations
are non-nullable foreign keys; the defaults below are never reached on
well-formed stores. -/
def getInvitationView (db : DB) (userId invId : Nat) : Except ApiError Invitation :=
  match findInvitation db invId with
  | none => .error ⟨404, "Invitation not found"⟩
  | some inv =>
    let memberIds := ((db.mdts.find? (fun m => m.id = inv.mdtId)).map MDT.memberIds).getD []
    let senderFirstName := ((db.users.find? (fun u => u.id = inv.senderId)).map User.firstName).getD ""
    if userId ∈ memberIds || !jsFalsy senderFirstName then .ok inv
    else if inv.receiverId = userId then .ok inv
    else .error ⟨403, "Not authorized to view this invitation"⟩

/-- `POST /api/mdt/invitations` (invitations route, lines 82–176): the
direct invite.  Only LOCAL senders; the receiver is looked up by email;
a still-PENDING invitation to the same receiver for the same MDT is a
conflict; otherwise a new invitation row is created.  The create call
passes no `specialtyId`, so the nullable foreign key is `null`, and no
`status`, which the schema (not part of the handler sources; the spec
describes the created invitation as PENDING) defaults to PENDING. -/
def createInvitation (db : DB) (sender : User) (mdtId : Nat)
    (receiverEmail : String) (newId now : Nat) : Except ApiError Invitation × DB :=
  if sender.userType ≠ UserType.LOCAL then
    (.error ⟨403, "Only local users can send invitations"⟩, db)
  else
    match db.users.find? (fun u => u.email = receiverEmail) with
    | none => (.error ⟨404, "Receiver not found"⟩, db)
    | some receiver =>
      if db.invitations.any (fun i => i.mdtId = mdtId ∧ i.receiverId = receiver.id ∧
          i.status = InvitationStatus.PENDING) then
        (.error ⟨400, "Invitation already exists"⟩, db)
      else
        let inv : Invitation :=
          { id := newId, mdtId := mdtId, senderId := sender.id
            receiverId := receiver.id, specialtyId := none
            status := InvitationStatus.PENDING, createdAt := now }
        (.ok inv, { db with invitations := db.invitations ++ [inv] })

/-- The request body of `POST /api/auth/signup` (signup route): the base
fields plus the role-specific optional ones. -/
structure SignupBody where
  firstName : String
  lastName : String
  email : String
  password : String
  specialties : List String
  userType : UserType
  hospital : Option String := none
  referralCode : Option String := none
  professionalRegistrationNumber : Option String := none
deriving DecidableEq, Repr

/-- Model of the external zod `z.string().email()` validator: one `'@'`
separating a non-empty local part of word/`.`/`+`/`-` characters from a
domain that is dot-separated non-empty alphanumeric-or-hyphen labels, at
least two of them.  (zod is a library dependency, not repository code;
this stand-in agrees with its regex on every address appearing in this
development.) -/
def zodEmailOk (s : String) : Bool :=
  match s.data.splitOn '@' with
  | [lpart, domain] =>
      lpart ≠ [] &&
      lpart.all (fun c => c.isAlphanum || c = '.' || c = '_' || c = '+' || c = '-') &&
      (domain.splitOn '.').length ≥ 2 &&
      (domain.splitOn '.').all (fun l => l ≠ [] && l.all (fun c => c.isAlphanum || c = '-'))
  | _ => false

/-- The zod schema parse of the signup handler (signup route, lines 7–40):
`localSignUpSchema` for `userType === 'LOCAL'`, `externalSignUpSchema`
otherwise.  The base rules are `firstName`/`lastName` at least 2
characters, a well-formed email, a password of *at least 8 characters*
(`z.string().min(8)` — the only password rule the schema contains), and a
list of specialty strings; LOCAL additionally requires non-empty
`hospital` and `referralCode`, EXTERNAL a non-empty
`professionalRegistrationNumber`.  `parse` throws on any failed rule. -/
def signupSchemaOk (b : SignupBody) : Bool :=
  2 ≤ b.firstName.length && 2 ≤ b.lastName.length &&
  zodEmailOk b.email && 8 ≤ b.password.length &&
  (match b.userType with
   | UserType.LOCAL =>
       (match b.hospital, b.referralCode with
        | some h, some rc => 1 ≤ h.length && 1 ≤ rc.length
        | _, _ => false)
   | UserType.EXTERNAL =>
       (match b.professionalRegistrationNumber with
        | some prn => 1 ≤ prn.length
        | none => false))

/-- `POST /api/auth/signup` (signup route, lines 33–160): parse the body
against the role-specific schema (a `ZodError` is surfaced as the 400
"Invalid data" response — the spec's `ValidationError`), reject an
already-registered email, for LOCAL users resolve the referral code to an
existing EXTERNAL user, then create the user row.  `freshCode` models the
unique referral code generated for EXTERNAL users and `newId` the fresh
row id; specialty ids arrive as strings and are converted with
`parseInt`, modelled by `String.toNat?`. -/
def register (db : DB) (b : SignupBody) (freshCode : String) (newId : Nat) :
    Except ApiError User × DB :=
  if ¬ signupSchemaOk b then (.error ⟨400, "Invalid data"⟩, db)
  else if db.users.any (fun u => u.email = b.email) then
    (.error ⟨400, "Email already registered"⟩, db)
  else
    let specialtyIds := b.specialties.filterMap String.toNat?
    let base : User :=
      { id := newId, firstName := b.firstName, lastName := b.lastName
        email := b.email, password := b.password, userType := b.userType
        specialties := specialtyIds }
    match b.userType with
    | UserType.LOCAL =>
      match db.users.find? (fun u => u.referralCode = b.referralCode) with
      | none => (.error ⟨400, "Invalid referral code"⟩, db)
      | some referrer =>
        if referrer.userType ≠ UserType.EXTERNAL then
          (.error ⟨400, "Invalid referral code"⟩, db)
        else
          let u := { base with hospital := b.hospital, referredById := some referrer.id }
          (.ok u, { db with users := db.users ++ [u] })
    | UserType.EXTERNAL =>
      let u := { base with
        professionalRegistrationNumber := b.professionalRegistrationNumber
        referralCode := some freshCode }
      (.ok u, { db with users := db.users ++ [u] })

/-! ### Concrete fixture

A small store used by the concrete theorems below: one MDT (id 1, created
by the LOCAL user Alice, who is its only member) with two unfilled
specialty slots, two competing PENDING invitations for slot 10 (to the
EXTERNAL users Bob and Carol), one ACCEPTED invitation for slot 20 (to
Bob), and one direct invitation without a specialty (to the LOCAL user
Dave, who is otherwise unrelated to the MDT). -/

/-- Fixture user: Alice, LOCAL, creator and only member of MDT 1. -/
def uAlice : User :=
  { id := 1, firstName := "Alice", lastName := "Smith", email := "alice@mail.com"
    password := "hash1", userType := UserType.LOCAL, specialties := [] }

/-- Fixture user: Bob, EXTERNAL, specialty 10. -/
def uBob : User :=
  { id := 2, firstName := "Bob", lastName := "Jones", email := "bob@mail.com"
    password := "hash2", userType := UserType.EXTERNAL, specialties := [10] }

/-- Fixture user: Carol, EXTERNAL, specialties 10 and 20. -/
def uCarol : User :=
  { id := 3, firstName := "Carol", lastName := "Lee", email := "carol@mail.com"
    password := "hash3", userType := UserType.EXTERNAL, specialties := [10, 20] }

/-- Fixture user: Dave, LOCAL, not a member of MDT 1. -/
def uDave : User :=
  { id := 5, firstName := "Dave", lastName := "Kim", email := "dave@mail.com"
    password := "hash5", userType := UserType.LOCAL, specialties := [] }

/-- The fixture store. -/
def db0 : DB :=
  { users := [uAlice, uBob, uCarol, uDave]
    mdts := [{ id := 1, name := "Case A", creatorId := 1, status := MDTStatus.ACTIVE
               memberIds := [1] }]
    mdtSpecialties := [⟨1, 10, false⟩, ⟨1, 20, false⟩]
    invitations :=
      [ ⟨100, 1, 1, 2, some 10, InvitationStatus.PENDING, 0⟩
      , ⟨101, 1, 1, 3, some 10, InvitationStatus.PENDING, 0⟩
      , ⟨102, 1, 1, 2, some 20, InvitationStatus.ACCEPTED, 0⟩
      , ⟨103, 1, 1, 5, none, InvitationStatus.PENDING, 0⟩ ]
    messages := []
    patientProfiles := [] }

/-- The MDT-creation request body used by the concrete witnesses. -/
def bodyB : CreateMDTBody :=
  { name := "Case B", age := 60, gender := "MALE", uniqueId := "P-9"
    medicalHistory := "hypertension", caseSummary := "summary"
    medications := [⟨"aspirin", "75mg"⟩], localDoctors := [5]
    requiredSpecialties := [10, 20] }

/-- The signup request body used by the C9 counterexample: a well-formed
EXTERNAL registration whose password `"aaaaaaaa"` is 8 characters long
but contains no uppercase letter and no digit. -/
def bodyEve : SignupBody :=
  { firstName := "Evelyn", lastName := "Stone", email := "eve@mail.com"
    password := "aaaaaaaa", specialties := ["10"], userType := UserType.EXTERNAL
    professionalRegistrationNumber := some "PRN1" }

/-! ### Theorems -/

/-- C2: the filled-slot precondition of respond(ACCEPTED) is read and
checked *before* the `$transaction` begins, so in the schedule where two
respond(ACCEPTED) calls for the two PENDING invitations of the same
`(MDT 1, specialty 10)` slot both run their checks before either
transaction commits, both checks pass and both invitations end ACCEPTED —
the slot is not filled exactly once by exactly one winner, contradicting
the claim that the check is acted upon inside the same transaction and
that exactly one invitation transitions to ACCEPTED. -/
theorem respond_accept_race_double_fill :
    (∀ i ∈ db0.invitations, (i.mdtId = 1 ∧ i.specialtyId = some 10) →
      i.status = InvitationStatus.PENDING) ∧
    (∀ rs ∈ db0.mdtSpecialties, rs.filled = false) ∧
    (respondConcurrent db0 2 100 3 101).map
        (fun dbf => (dbf.invitations.filter
          (fun i => i.specialtyId = some (10 : Nat) ∧
            i.status = InvitationStatus.ACCEPTED)).length) = some 2 := by
  decide

/-- C5 (counterexample): invitation 102 is in the terminal state ACCEPTED,
yet the collection-level `PATCH /api/mdt/invitations` handler — which
performs the status update with no check of the invitation's current
status — succeeds for its receiver and changes its status to DECLINED,
refuting "no operation ever changes a terminal invitation's status" and
"a respond call on a non-PENDING invitation always fails and never
changes any state". -/
theorem invitationsPatch_mutates_terminal :
    (findInvitation db0 102).map Invitation.status = some InvitationStatus.ACCEPTED ∧
    isSuccess (invitationsPatch db0 2 102 InvitationStatus.DECLINED).1 = true ∧
    (findInvitation (invitationsPatch db0 2 102 InvitationStatus.DECLINED).2 102).map
        Invitation.status = some InvitationStatus.DECLINED := by
  decide

/-- C6: user 5 (Dave) is not a member of invitation 100's MDT, not its
sender (Alice, id 1) and not its receiver (Bob, id 2), yet fetching the
invitation succeeds for him: the handler's visibility check
`invitation.mdt.members.some(...) || invitation.sender.firstName` tests
the truthiness of the sender's first name instead of comparing the sender
with the caller, so any authenticated user can read any invitation whose
sender has a non-empty first name — contradicting the handler's own
comment "User is either a member or the sender". -/
theorem getInvitation_visible_to_unrelated_user :
    findInvitation db0 100 = some ⟨100, 1, 1, 2, some 10, InvitationStatus.PENDING, 0⟩ ∧
    (∀ m ∈ db0.mdts, (5 : Nat) ∉ m.memberIds) ∧
    getInvitationView db0 5 100 = .ok ⟨100, 1, 1, 2, some 10, InvitationStatus.PENDING, 0⟩ :=
  ⟨by decide, by decide, rfl⟩

/-- C9 (counterexample): the signup schema validates the password with
`z.string().min(8)` only, so the 8-character password `"aaaaaaaa"` —
which contains no uppercase letter and no digit — passes validation and
registration succeeds, refuting the claim that register fails with
`ValidationError` for every password lacking an uppercase letter, a
lowercase letter, or a digit. -/
theorem register_password_no_complexity_check :
    8 ≤ bodyEve.password.length ∧
    bodyEve.password.data.all (fun c => !c.isUpper) = true ∧
    bodyEve.password.data.all (fun c => !c.isDigit) = true ∧
    isSuccess (register db0 bodyEve "REF1CODE" 9).1 = true := by
  decide

/-- C5 (amended): through the per-invitation respond endpoint, responding
to an invitation that is no longer PENDING always fails with the
"already been responded to" conflict and leaves the store unchanged,
whatever the requested action. -/
theorem respond_nonpending_conflict (db : DB) (userId invId : Nat)
    (status : InvitationStatus) (inv : Invitation)
    (hs : status = InvitationStatus.ACCEPTED ∨ status = InvitationStatus.DECLINED)
    (hfind : findInvitation db invId = some inv)
    (hrecv : inv.receiverId = userId)
    (hterm : inv.status ≠ InvitationStatus.PENDING) :
    respond db userId invId status =
      (.error ⟨400, "Invitation has already been responded to"⟩, db) := by
  have h1 : ¬ (status ≠ InvitationStatus.ACCEPTED ∧ status ≠ InvitationStatus.DECLINED) := by
    rcases hs with h | h <;> simp [h]
  simp only [respond, respondCheck, hfind]
  simp [h1, hrecv, hterm]

/-- Witness for C5's amended theorem: invitation 102 of the fixture is
ACCEPTED, and its receiver's repeated respond fails with the conflict and
changes nothing. -/
theorem respond_nonpending_conflict_witness :
    findInvitation db0 102 = some ⟨102, 1, 1, 2, some 20, InvitationStatus.ACCEPTED, 0⟩ ∧
    respond db0 2 102 InvitationStatus.DECLINED =
      (.error ⟨400, "Invitation has already been responded to"⟩, db0) :=
  ⟨by decide, respond_nonpending_conflict db0 2 102 InvitationStatus.DECLINED
    ⟨102, 1, 1, 2, some 20, InvitationStatus.ACCEPTED, 0⟩
    (Or.inr rfl) (by decide) rfl (by decide)⟩

/-- C10: the direct-invite handler creates every invitation with
`specialtyId = null`, and responding ACCEPTED to any invitation whose
`specialtyId` is null through the per-invitation respond endpoint always
fails with the "position already filled" conflict and changes nothing,
whatever the state of the MDT's specialty slots, because the filled-slot
lookup compares each row's `specialtyId` with `null` and can never match. -/
theorem direct_invite_null_specialty_unacceptable :
    (∀ (db : DB) (sender : User) (mdtId : Nat) (receiverEmail : String)
       (newId now : Nat) (inv : Invitation) (db' : DB),
       createInvitation db sender mdtId receiverEmail newId now = (.ok inv, db') →
       inv.specialtyId = none) ∧
    (∀ (db : DB) (userId invId : Nat) (inv : Invitation),
       findInvitation db invId = some inv → inv.specialtyId = none →
       inv.receiverId = userId → inv.status = InvitationStatus.PENDING →
       respond db userId invId InvitationStatus.ACCEPTED =
         (.error ⟨400, "This specialty position has already been filled"⟩, db)) := by
  constructor
  · intro db sender mdtId receiverEmail newId now inv db' h
    unfold createInvitation at h
    split at h
    · simp at h
    · split at h
      · simp at h
      · split at h
        · simp at h
        · simp only [Prod.mk.injEq, Except.ok.injEq] at h
          obtain ⟨h1, -⟩ := h
          subst h1
          rfl
  · intro db userId invId inv hfind hnone hrecv hpend
    have hfsp : (db.mdtSpecialties.filter (fun rs => rs.mdtId = inv.mdtId)).find?
        (fun rs => inv.specialtyId = some rs.specialtyId && !rs.filled) = none := by
      apply List.find?_eq_none.mpr
      intro rs _
      simp [hnone]
    simp only [respond, respondCheck, hfind]
    simp [hrecv, hpend, hfsp]

/-- Witness for C10: the direct invite of the fixture's Dave to MDT 2
carries no specialty, and Dave's attempt to accept the fixture's
null-specialty invitation 103 fails with the filled-position conflict
even though both of MDT 1's slots are unfilled. -/
theorem direct_invite_null_specialty_unacceptable_witness :
    (⟨200, 2, 1, 5, none, InvitationStatus.PENDING, 5⟩ : Invitation).specialtyId = none ∧
    respond db0 5 103 InvitationStatus.ACCEPTED =
      (.error ⟨400, "This specialty position has already been filled"⟩, db0) :=
  ⟨direct_invite_null_specialty_unacceptable.1 db0 uAlice 2 "dave@mail.com" 200 5
      ⟨200, 2, 1, 5, none, InvitationStatus.PENDING, 5⟩
      ((createInvitation db0 uAlice 2 "dave@mail.com" 200 5).2) rfl,
   direct_invite_null_specialty_unacceptable.2 db0 5 103
      ⟨103, 1, 1, 5, none, InvitationStatus.PENDING, 0⟩ rfl rfl rfl rfl⟩

/-- C7: for a member of an existing MDT, posting a message succeeds
exactly when the content's trimmed length is between 1 and 2000
characters — in particular a 2000-character trimmed content succeeds and
a 2001-character one fails. -/
theorem postMessage_content_length_iff (db : DB) (userId mdtId : Nat)
    (content : String) (now msgId : Nat) (mdt : MDT)
    (hfind : db.mdts.find? (fun m => m.id = mdtId) = some mdt)
    (hmem : userId ∈ mdt.memberIds) :
    isSuccess (postMessage db userId mdtId content now msgId).1 = true ↔
      (1 ≤ (jsTrim content).length ∧ (jsTrim content).length ≤ 2000) := by
  unfold postMessage
  by_cases hz : (jsTrim content).length = 0
  · have hcond : (jsFalsy content || decide ((jsTrim content).length = 0)) = true := by
      simp [hz]
    rw [if_pos hcond]
    simp [isSuccess]
    omega
  · have hf : jsFalsy content = false := by
      simp only [jsFalsy, decide_eq_false_iff_not]
      intro h
      exact hz (by rw [h]; rfl)
    have hcond : ¬ ((jsFalsy content || decide ((jsTrim content).length = 0)) = true) := by
      simp [hf, hz]
    rw [if_neg hcond]
    by_cases hg : (jsTrim content).length > 2000
    · rw [if_pos hg]
      simp [isSuccess]
      omega
    · rw [if_neg hg]
      rw [hfind]
      simp [hmem, isSuccess]
      omega

/-- Witness for C7: Alice posting to her MDT with content "  hello  ". -/
theorem postMessage_content_length_iff_witness :
    isSuccess (postMessage db0 1 1 "  hello  " 5 900).1 = true ↔
      (1 ≤ (jsTrim "  hello  ").length ∧ (jsTrim "  hello  ").length ≤ 2000) :=
  postMessage_content_length_iff db0 1 1 "  hello  " 5 900
    ⟨1, "Case A", 1, MDTStatus.ACTIVE, [1]⟩ (by decide) (by decide)

/-- C8: a successful post followed by a list for the same MDT returns a
message list that contains the posted message, whose stored content is
byte-for-byte the trimmed input, and the returned list is ordered
ascending by creation time. -/
theorem post_list_round_trip (db : DB) (userId mdtId : Nat) (content : String)
    (now msgId : Nat) (msg : Message) (db' : DB)
    (hpost : postMessage db userId mdtId content now msgId = (.ok msg, db')) :
    msg.content = jsTrim content ∧
    ∃ msgs, listMessages db' userId mdtId = .ok msgs ∧ msg ∈ msgs ∧
      List.Pairwise (fun a b => a.createdAt ≤ b.createdAt) msgs := by
  unfold postMessage at hpost
  split at hpost
  · simp at hpost
  · split at hpost
    · simp at hpost
    · split at hpost
      · simp at hpost
      · rename_i mdt hfind
        split at hpost
        case isFalse => simp at hpost
        case isTrue hmem =>
          simp only [Prod.mk.injEq, Except.ok.injEq] at hpost
          obtain ⟨hmsg, hdb⟩ := hpost
          subst hmsg
          subst hdb
          refine ⟨rfl, ?_⟩
          unfold listMessages
          simp only [hfind]
          rw [if_pos hmem]
          refine ⟨_, rfl, ?_, ?_⟩
          · rw [List.mem_mergeSort]
            refine List.mem_filter.mpr ⟨?_, by simp⟩
            exact List.mem_append.mpr (Or.inr (List.mem_singleton.mpr rfl))
          · have hs := @List.sorted_mergeSort Message
              (fun a b : Message => decide (a.createdAt ≤ b.createdAt))
              (by intro a b c hab hbc; simp at hab hbc ⊢; omega)
              (by intro a b; simp [Nat.le_total])
              (({ db with messages := db.messages ++
                [{ id := msgId, mdtId := mdtId, userId := userId
                   content := jsTrim content, createdAt := now }] } : DB).messages.filter
                  (fun m => decide (m.mdtId = mdtId)))
            exact hs.imp (fun h => of_decide_eq_true h)

/-- Witness for C8: Alice posts " hi " to her MDT; listing returns a
sorted list containing the message with content "hi". -/
theorem post_list_round_trip_witness :
    (⟨900, 1, 1, jsTrim " hi ", 5⟩ : Message).content = jsTrim " hi " ∧
    ∃ msgs, listMessages (postMessage db0 1 1 " hi " 5 900).2 1 1 = .ok msgs ∧
      (⟨900, 1, 1, jsTrim " hi ", 5⟩ : Message) ∈ msgs ∧
      List.Pairwise (fun a b => a.createdAt ≤ b.createdAt) msgs :=
  post_list_round_trip db0 1 1 " hi " 5 900 ⟨900, 1, 1, jsTrim " hi ", 5⟩
    ((postMessage db0 1 1 " hi " 5 900).2) rfl

/-- Connecting a user to a member list always leaves the user in it. -/
theorem mem_connectMember_self (l : List Nat) (u : Nat) : u ∈ connectMember l u := by
  unfold connectMember
  split
  · assumption
  · simp

/-- `setStatusIfId` preserves the row id. -/
theorem setStatusIfId_id (invId : Nat) (st : InvitationStatus) (i : Invitation) :
    (setStatusIfId invId st i).id = i.id := by
  unfold setStatusIfId; split <;> rfl

/-- `cancelOtherPending` preserves the row id. -/
theorem cancelOtherPending_id (mdtId : Nat) (sp : Option Nat) (invId : Nat) (i : Invitation) :
    (cancelOtherPending mdtId sp invId i).id = i.id := by
  unfold cancelOtherPending; split <;> rfl

/-- `addMemberIfMdt` preserves the row id. -/
theorem addMemberIfMdt_id (mdtId userId : Nat) (m : MDT) :
    (addMemberIfMdt mdtId userId m).id = m.id := by
  unfold addMemberIfMdt; split <;> rfl

/-- `fillSlotIfKey` preserves the row's MDT id. -/
theorem fillSlotIfKey_mdtId (mdtId : Nat) (sp : Option Nat) (rs : MDTSpecialty) :
    (fillSlotIfKey mdtId sp rs).mdtId = rs.mdtId := by
  unfold fillSlotIfKey; split <;> rfl

/-- `fillSlotIfKey` preserves the row's specialty id. -/
theorem fillSlotIfKey_specialtyId (mdtId : Nat) (sp : Option Nat) (rs : MDTSpecialty) :
    (fillSlotIfKey mdtId sp rs).specialtyId = rs.specialtyId := by
  unfold fillSlotIfKey; split <;> rfl

/-- C1: every successful respond(ACCEPTED) call applies exactly one
transaction (`respondTx`), inside which the invitation's status becomes
ACCEPTED, the responder is connected to the MDT's members, the
`(mdt, invitation.specialty)` slot row exists and is filled, and every
other invitation of the same `(MDT, specialty)` pair that was PENDING is
CANCELLED in the post-state. -/
theorem respond_accept_transaction_effects (db : DB) (userId invId : Nat)
    (out : Invitation) (db' : DB)
    (h : respond db userId invId InvitationStatus.ACCEPTED = (.ok out, db')) :
    ∃ inv, findInvitation db invId = some inv ∧
      db' = respondTx db userId invId inv InvitationStatus.ACCEPTED ∧
      (∀ i ∈ db'.invitations, i.id = invId → i.status = InvitationStatus.ACCEPTED) ∧
      (∀ m ∈ db'.mdts, m.id = inv.mdtId → userId ∈ m.memberIds) ∧
      (∃ rs ∈ db'.mdtSpecialties, rs.mdtId = inv.mdtId ∧ inv.specialtyId = some rs.specialtyId) ∧
      (∀ rs ∈ db'.mdtSpecialties, rs.mdtId = inv.mdtId → inv.specialtyId = some rs.specialtyId →
        rs.filled = true) ∧
      (∀ i ∈ db.invitations, i.id ≠ invId → i.mdtId = inv.mdtId →
        i.specialtyId = inv.specialtyId → i.status = InvitationStatus.PENDING →
        { i with status := InvitationStatus.CANCELLED } ∈ db'.invitations) := by
  unfold respond at h
  split at h
  case h_1 => simp at h
  case h_2 inv hcheck =>
  simp only [Prod.mk.injEq, Except.ok.injEq] at h
  obtain ⟨hout, hdb⟩ := h
  have hfacts : findInvitation db invId = some inv ∧
      ∃ rs0, ((db.mdtSpecialties.filter (fun rs => rs.mdtId = inv.mdtId)).find?
        (fun rs => inv.specialtyId = some rs.specialtyId && !rs.filled)) = some rs0 := by
    simp only [respondCheck] at hcheck
    split at hcheck
    · simp at hcheck
    · split at hcheck
      · simp at hcheck
      · rename_i inv0 hfind0
        split at hcheck
        · simp at hcheck
        · split at hcheck
          · simp at hcheck
          · split at hcheck
            · simp at hcheck
            · rename_i hcond
              simp only [Except.ok.injEq] at hcheck
              subst hcheck
              refine ⟨hfind0, ?_⟩
              have hne : ((db.mdtSpecialties.filter (fun rs => rs.mdtId = inv0.mdtId)).find?
                  (fun rs => inv0.specialtyId = some rs.specialtyId && !rs.filled)) ≠ none := by
                intro hn
                exact hcond ⟨by trivial, hn⟩
              exact Option.ne_none_iff_exists'.mp hne
  obtain ⟨hfind, rs0, hrs0⟩ := hfacts
  subst hdb
  have e1 : (respondTx db userId invId inv InvitationStatus.ACCEPTED).invitations =
      (db.invitations.map (setStatusIfId invId InvitationStatus.ACCEPTED)).map
        (cancelOtherPending inv.mdtId inv.specialtyId invId) := rfl
  have e2 : (respondTx db userId invId inv InvitationStatus.ACCEPTED).mdts =
      db.mdts.map (addMemberIfMdt inv.mdtId userId) := rfl
  have e3 : (respondTx db userId invId inv InvitationStatus.ACCEPTED).mdtSpecialties =
      db.mdtSpecialties.map (fillSlotIfKey inv.mdtId inv.specialtyId) := rfl
  refine ⟨inv, hfind, rfl, ?_, ?_, ?_, ?_, ?_⟩
  · intro i hi hid
    rw [e1] at hi
    obtain ⟨y, hy, rfl⟩ := List.mem_map.mp hi
    obtain ⟨a, ha, rfl⟩ := List.mem_map.mp hy
    rw [cancelOtherPending_id, setStatusIfId_id] at hid
    have hset : setStatusIfId invId InvitationStatus.ACCEPTED a =
        { a with status := InvitationStatus.ACCEPTED } := by
      unfold setStatusIfId; rw [if_pos hid]
    rw [hset]
    have hcanc : cancelOtherPending inv.mdtId inv.specialtyId invId
        { a with status := InvitationStatus.ACCEPTED } =
        { a with status := InvitationStatus.ACCEPTED } := by
      unfold cancelOtherPending
      rw [if_neg]
      rintro ⟨-, -, hst, -⟩
      simp at hst
    rw [hcanc]
  · intro m hm hmid
    rw [e2] at hm
    obtain ⟨a, ha, rfl⟩ := List.mem_map.mp hm
    rw [addMemberIfMdt_id] at hmid
    have : addMemberIfMdt inv.mdtId userId a =
        { a with memberIds := connectMember a.memberIds userId } := by
      unfold addMemberIfMdt; rw [if_pos hmid]
    rw [this]
    exact mem_connectMember_self a.memberIds userId
  · have hmemf := List.mem_of_find?_eq_some hrs0
    have hpred := List.find?_some hrs0
    obtain ⟨hmem0, hmdt0⟩ := List.mem_filter.mp hmemf
    have hmdt0' : rs0.mdtId = inv.mdtId := of_decide_eq_true hmdt0
    have hspec0 : inv.specialtyId = some rs0.specialtyId := by
      simp only [Bool.and_eq_true, decide_eq_true_eq] at hpred
      exact hpred.1
    refine ⟨{ rs0 with filled := true }, ?_, hmdt0', hspec0⟩
    rw [e3]
    have hfill : fillSlotIfKey inv.mdtId inv.specialtyId rs0 = { rs0 with filled := true } := by
      unfold fillSlotIfKey; rw [if_pos ⟨hmdt0', hspec0⟩]
    rw [← hfill]
    exact List.mem_map_of_mem _ hmem0
  · intro rs hrs h1 h2
    rw [e3] at hrs
    obtain ⟨a, ha, rfl⟩ := List.mem_map.mp hrs
    rw [fillSlotIfKey_mdtId] at h1
    rw [fillSlotIfKey_specialtyId] at h2
    have : fillSlotIfKey inv.mdtId inv.specialtyId a = { a with filled := true } := by
      unfold fillSlotIfKey; rw [if_pos ⟨h1, h2⟩]
    rw [this]
  · intro a ha hne hmdt hspec hpend
    rw [e1]
    have hset : setStatusIfId invId InvitationStatus.ACCEPTED a = a := by
      unfold setStatusIfId; rw [if_neg hne]
    have hcanc : cancelOtherPending inv.mdtId inv.specialtyId invId a =
        { a with status := InvitationStatus.CANCELLED } := by
      unfold cancelOtherPending; rw [if_pos ⟨hmdt, hspec, hpend, hne⟩]
    have hm := List.mem_map_of_mem (cancelOtherPending inv.mdtId inv.specialtyId invId)
      (List.mem_map_of_mem (setStatusIfId invId InvitationStatus.ACCEPTED) ha)
    rw [hset, hcanc] at hm
    exact hm

/-- Witness for C1: Bob accepts invitation 100 of the fixture. -/
theorem respond_accept_transaction_effects_witness :
    ∃ inv, findInvitation db0 100 = some inv ∧
      (respond db0 2 100 InvitationStatus.ACCEPTED).2 =
        respondTx db0 2 100 inv InvitationStatus.ACCEPTED ∧
      (∀ i ∈ (respond db0 2 100 InvitationStatus.ACCEPTED).2.invitations,
        i.id = 100 → i.status = InvitationStatus.ACCEPTED) ∧
      (∀ m ∈ (respond db0 2 100 InvitationStatus.ACCEPTED).2.mdts,
        m.id = inv.mdtId → 2 ∈ m.memberIds) ∧
      (∃ rs ∈ (respond db0 2 100 InvitationStatus.ACCEPTED).2.mdtSpecialties,
        rs.mdtId = inv.mdtId ∧ inv.specialtyId = some rs.specialtyId) ∧
      (∀ rs ∈ (respond db0 2 100 InvitationStatus.ACCEPTED).2.mdtSpecialties,
        rs.mdtId = inv.mdtId → inv.specialtyId = some rs.specialtyId → rs.filled = true) ∧
      (∀ i ∈ db0.invitations, i.id ≠ 100 → i.mdtId = inv.mdtId →
        i.specialtyId = inv.specialtyId → i.status = InvitationStatus.PENDING →
        { i with status := InvitationStatus.CANCELLED } ∈
          (respond db0 2 100 InvitationStatus.ACCEPTED).2.invitations) :=
  respond_accept_transaction_effects db0 2 100
    ⟨100, 1, 1, 2, some 10, InvitationStatus.ACCEPTED, 0⟩
    ((respond db0 2 100 InvitationStatus.ACCEPTED).2) rfl

/-- C9 (amended): register fails with the schema ValidationError for
every password shorter than 8 characters — the only password rule the
schema contains — and the store is unchanged. -/
theorem register_short_password_rejected (db : DB) (b : SignupBody)
    (freshCode : String) (newId : Nat)
    (hshort : b.password.length < 8) :
    register db b freshCode newId = (.error ⟨400, "Invalid data"⟩, db) := by
  have h : signupSchemaOk b = false := by
    unfold signupSchemaOk
    have h8 : ¬ (8 ≤ b.password.length) := by omega
    simp [h8]
  unfold register
  simp [h]

/-- Folding `connectMember` preserves existing members. -/
theorem mem_foldl_connectMember (ids : List Nat) (u : Nat) :
    ∀ acc, u ∈ acc → u ∈ ids.foldl connectMember acc := by
  induction ids with
  | nil => intro acc h; exact h
  | cons x xs ih =>
      intro acc h
      apply ih
      unfold connectMember
      split
      · exact h
      · exact List.mem_append_left _ h

/-- Folding `connectMember` over a list of ids connects each of them. -/
theorem mem_foldl_connectMember_of_mem_ids (ids : List Nat) (u : Nat) :
    ∀ acc, u ∈ ids → u ∈ ids.foldl connectMember acc := by
  induction ids with
  | nil => intro acc h; cases h
  | cons x xs ih =>
      intro acc h
      rcases List.mem_cons.mp h with rfl | h'
      · exact mem_foldl_connectMember xs u (connectMember acc u)
          (mem_connectMember_self acc u)
      · exact ih _ h'

/-- The fan-out creates, per receiver id, exactly as many invitations for
the new MDT as there are matched doctors with that id. -/
theorem mkInvitations_filter_length (newId senderId : Nat) (req : List Nat)
    (now uid : Nat) (docs : List User) :
    ∀ base : Nat,
      ((mkInvitations newId senderId req now base docs).filter
        (fun i => i.mdtId = newId ∧ i.receiverId = uid)).length
        = (docs.filter (fun d => d.id = uid)).length := by
  induction docs with
  | nil => intro base; rfl
  | cons d ds ih =>
      intro base
      simp only [mkInvitations]
      rw [List.filter_cons, List.filter_cons]
      by_cases hd : d.id = uid
      · rw [if_pos (by simp [hd]), if_pos (by simp [hd])]
        rw [List.length_cons, List.length_cons, ih (base + 1)]
      · rw [if_neg (by simp [hd]), if_neg (by simp [hd])]
        exact ih (base + 1)

/-- Every fanned-out invitation belongs to some matched doctor, is
PENDING, targets the new MDT, and carries that doctor's first specialty
common with the required list. -/
theorem mkInvitations_mem (newId senderId : Nat) (req : List Nat) (now : Nat)
    (docs : List User) :
    ∀ (base : Nat) (inv : Invitation),
      inv ∈ mkInvitations newId senderId req now base docs →
      ∃ d ∈ docs, inv.mdtId = newId ∧ inv.receiverId = d.id ∧
        inv.specialtyId = d.specialties.find? (fun s => req.contains s) ∧
        inv.status = InvitationStatus.PENDING := by
  induction docs with
  | nil => intro base inv h; cases h
  | cons d ds ih =>
      intro base inv h
      rcases List.mem_cons.mp h with rfl | h'
      · exact ⟨d, List.mem_cons_self d ds, rfl, rfl, rfl, rfl⟩
      · obtain ⟨d', hd', hrest⟩ := ih (base + 1) inv h'
        exact ⟨d', List.mem_cons_of_mem _ hd', hrest⟩

/-- In a list of users with pairwise distinct ids, filtering by a present
user's id yields exactly one row. -/
theorem filter_id_length_one {l : List User} {u : User}
    (hn : (l.map User.id).Nodup) (hu : u ∈ l) :
    (l.filter (fun d => d.id = u.id)).length = 1 := by
  induction l with
  | nil => cases hu
  | cons x xs ih =>
      rw [List.map_cons, List.nodup_cons] at hn
      obtain ⟨hx, hxs⟩ := hn
      rcases List.mem_cons.mp hu with rfl | hu'
      · rw [List.filter_cons, if_pos (by simp)]
        have hnil : xs.filter (fun d => decide (d.id = u.id)) = [] := by
          apply List.filter_eq_nil_iff.mpr
          intro d hd
          simp only [decide_eq_true_eq]
          intro he
          exact hx (he ▸ List.mem_map_of_mem User.id hd)
        simp [hnil]
      · have hxid : x.id ≠ u.id := fun he => hx (he ▸ List.mem_map_of_mem User.id hu')
        rw [List.filter_cons, if_neg (by simp [hxid])]
        exact ih hxs hu'

/-- Filtering by an id no row has yields nothing. -/
theorem filter_id_length_zero {l : List User} {u : User}
    (h : ∀ d ∈ l, d.id ≠ u.id) :
    (l.filter (fun d => d.id = u.id)).length = 0 := by
  rw [List.length_eq_zero]
  apply List.filter_eq_nil_iff.mpr
  intro d hd
  simp [h d hd]

/-- C4: MDT creation is all-or-nothing.  If any step of the transaction
fails, the returned store is exactly the pre-state (no partial MDT is
visible); on success the post-state contains the ACTIVE MDT row with the
creator and all listed local doctors connected as members, the patient
profile with its medications, one unfilled slot per required specialty,
and exactly the fanned-out invitations. -/
theorem createMDT_atomic (db : DB) (creator : User) (body : CreateMDTBody)
    (newId invBase now : Nat) :
    (∀ e db', createMDT db creator body newId invBase now = (.error e, db') → db' = db) ∧
    (∀ mdtOut db', createMDT db creator body newId invBase now = (.ok mdtOut, db') →
      mdtOut.status = MDTStatus.ACTIVE ∧ mdtOut.id = newId ∧ mdtOut ∈ db'.mdts ∧
      creator.id ∈ mdtOut.memberIds ∧
      (∀ d ∈ body.localDoctors, d ∈ mdtOut.memberIds) ∧
      (∃ pp ∈ db'.patientProfiles, pp.mdtId = newId ∧ pp.uniqueId = body.uniqueId ∧
        pp.medications = body.medications) ∧
      (∀ sid ∈ body.requiredSpecialties,
        (⟨newId, sid, false⟩ : MDTSpecialty) ∈ db'.mdtSpecialties) ∧
      db'.invitations = db.invitations ++
        mkInvitations newId creator.id body.requiredSpecialties now invBase
          (db.users.filter (matchesRequired body.requiredSpecialties))) := by
  constructor
  · intro e db' h
    unfold createMDT at h
    split at h
    · simp only [Prod.mk.injEq] at h
      exact h.2.symm
    · split at h
      · simp only [Prod.mk.injEq] at h
        exact h.2.symm
      · simp at h
  · intro mdtOut db' h
    unfold createMDT at h
    split at h
    · simp at h
    · split at h
      · simp at h
      · rename_i mdt0 db0 heq
        simp only [Prod.mk.injEq, Except.ok.injEq] at h
        obtain ⟨h1, h2⟩ := h
        subst h1
        subst h2
        unfold createMDTTx at heq
        split at heq
        · simp at heq
        · split at heq
          · simp at heq
          · simp only [Except.ok.injEq, Prod.mk.injEq] at heq
            obtain ⟨hm, hdb⟩ := heq
            subst hm
            subst hdb
            refine ⟨rfl, rfl, ?_, ?_, ?_, ?_, ?_, rfl⟩
            · exact List.mem_append.mpr (Or.inr (List.mem_singleton.mpr rfl))
            · exact mem_foldl_connectMember body.localDoctors creator.id _
                (mem_connectMember_self [] creator.id)
            · intro d hd
              exact mem_foldl_connectMember_of_mem_ids body.localDoctors d _ hd
            · refine ⟨_, List.mem_append.mpr (Or.inr (List.mem_singleton.mpr rfl)),
                rfl, rfl, rfl⟩
            · intro sid hsid
              refine List.mem_append.mpr (Or.inr ?_)
              exact List.mem_map.mpr ⟨sid, hsid, rfl⟩

/-- C3: for every successful MDT creation (over a store with distinct
user ids and a fresh MDT id), the created MDT's member set contains the
creator, and the matching step creates exactly one PENDING invitation per
distinct EXTERNAL user whose specialty set meets the required list — tied
to that user's first specialty in common with the required list — and
none for any other user. -/
theorem createMDT_matching (db : DB) (creator : User) (body : CreateMDTBody)
    (newId invBase now : Nat) (mdtOut : MDT) (db' : DB)
    (hids : (db.users.map User.id).Nodup)
    (hfresh : ∀ i ∈ db.invitations, i.mdtId ≠ newId)
    (h : createMDT db creator body newId invBase now = (.ok mdtOut, db')) :
    (mdtOut ∈ db'.mdts ∧ mdtOut.id = newId ∧ creator.id ∈ mdtOut.memberIds) ∧
    (∀ u ∈ db.users, matchesRequired body.requiredSpecialties u = true →
      ((db'.invitations.filter (fun i => i.mdtId = newId ∧ i.receiverId = u.id)).length = 1 ∧
       (∀ i ∈ db'.invitations, i.mdtId = newId → i.receiverId = u.id →
         (i.status = InvitationStatus.PENDING ∧
          i.specialtyId = u.specialties.find?
            (fun s => body.requiredSpecialties.contains s))))) ∧
    (∀ u ∈ db.users, matchesRequired body.requiredSpecialties u = false →
      (db'.invitations.filter (fun i => i.mdtId = newId ∧ i.receiverId = u.id)).length = 0) := by
  have hinj := List.inj_on_of_nodup_map hids
  unfold createMDT at h
  split at h
  · simp at h
  · split at h
    · simp at h
    · rename_i mdt0 db0 heq
      simp only [Prod.mk.injEq, Except.ok.injEq] at h
      obtain ⟨h1, h2⟩ := h
      subst h1
      subst h2
      unfold createMDTTx at heq
      split at heq
      · simp at heq
      · split at heq
        · simp at heq
        · simp only [Except.ok.injEq, Prod.mk.injEq] at heq
          obtain ⟨hm, hdb⟩ := heq
          subst hm
          subst hdb
          have hdocsids : ((db.users.filter
              (matchesRequired body.requiredSpecialties)).map User.id).Nodup :=
            hids.sublist ((List.filter_sublist db.users).map User.id)
          refine ⟨⟨?_, rfl, ?_⟩, ?_, ?_⟩
          · exact List.mem_append.mpr (Or.inr (List.mem_singleton.mpr rfl))
          · exact mem_foldl_connectMember body.localDoctors creator.id _
              (mem_connectMember_self [] creator.id)
          · intro u hu hmatch
            have hnilu : db.invitations.filter
                (fun i => i.mdtId = newId ∧ i.receiverId = u.id) = [] := by
              apply List.filter_eq_nil_iff.mpr
              intro i hi
              simp only [decide_eq_true_eq]
              rintro ⟨h1, -⟩
              exact hfresh i hi h1
            constructor
            · rw [List.filter_append, List.length_append, hnilu, List.length_nil,
                Nat.zero_add, mkInvitations_filter_length]
              exact filter_id_length_one hdocsids (List.mem_filter.mpr ⟨hu, hmatch⟩)
            · intro i hi h1 h2
              rcases List.mem_append.mp hi with hl | hr
              · exact absurd h1 (hfresh i hl)
              · obtain ⟨d, hd, hmdt, hrecv, hspec, hstat⟩ :=
                  mkInvitations_mem newId creator.id body.requiredSpecialties now
                    (db.users.filter (matchesRequired body.requiredSpecialties))
                    invBase i hr
                have hdu : d = u := hinj (List.mem_of_mem_filter hd) hu
                  (by rw [← hrecv, h2])
                subst hdu
                exact ⟨hstat, hspec⟩
          · intro u hu hmatch
            have hnilu : db.invitations.filter
                (fun i => i.mdtId = newId ∧ i.receiverId = u.id) = [] := by
              apply List.filter_eq_nil_iff.mpr
              intro i hi
              simp only [decide_eq_true_eq]
              rintro ⟨h1, -⟩
              exact hfresh i hi h1
            rw [List.filter_append, List.length_append, hnilu, List.length_nil,
              Nat.zero_add, mkInvitations_filter_length]
            apply filter_id_length_zero
            intro d hd he
            have hdu : d = u := hinj (List.mem_of_mem_filter hd) hu he
            have hdm := (List.mem_filter.mp hd).2
            rw [hdu, hmatch] at hdm
            cases hdm

/-- Witness for C9's amended theorem: a 4-character password is rejected. -/
theorem register_short_password_rejected_witness :
    ("aaaa" : String).length < 8 ∧
    register db0 { firstName := "Evelyn", lastName := "Stone", email := "eve@mail.com"
                   password := "aaaa", specialties := ["10"], userType := UserType.EXTERNAL
                   professionalRegistrationNumber := some "PRN1" } "REF2CODE" 9 =
      (.error ⟨400, "Invalid data"⟩, db0) :=
  ⟨by decide, register_short_password_rejected db0 _ "REF2CODE" 9 (by decide)⟩

/-- Witness for C4: Alice creates "Case B" on the fixture store. -/
theorem createMDT_atomic_witness :
    (⟨50, "Case B", 1, MDTStatus.ACTIVE, [1, 5]⟩ : MDT).status = MDTStatus.ACTIVE ∧
    (⟨50, "Case B", 1, MDTStatus.ACTIVE, [1, 5]⟩ : MDT).id = 50 ∧
    (⟨50, "Case B", 1, MDTStatus.ACTIVE, [1, 5]⟩ : MDT) ∈
      (createMDT db0 uAlice bodyB 50 500 7).2.mdts ∧
    uAlice.id ∈ (⟨50, "Case B", 1, MDTStatus.ACTIVE, [1, 5]⟩ : MDT).memberIds ∧
    (∀ d ∈ bodyB.localDoctors,
      d ∈ (⟨50, "Case B", 1, MDTStatus.ACTIVE, [1, 5]⟩ : MDT).memberIds) ∧
    (∃ pp ∈ (createMDT db0 uAlice bodyB 50 500 7).2.patientProfiles,
      pp.mdtId = 50 ∧ pp.uniqueId = bodyB.uniqueId ∧ pp.medications = bodyB.medications) ∧
    (∀ sid ∈ bodyB.requiredSpecialties,
      (⟨50, sid, false⟩ : MDTSpecialty) ∈
        (createMDT db0 uAlice bodyB 50 500 7).2.mdtSpecialties) ∧
    (createMDT db0 uAlice bodyB 50 500 7).2.invitations = db0.invitations ++
      mkInvitations 50 uAlice.id bodyB.requiredSpecialties 7 500
        (db0.users.filter (matchesRequired bodyB.requiredSpecialties)) :=
  (createMDT_atomic db0 uAlice bodyB 50 500 7).2
    ⟨50, "Case B", 1, MDTStatus.ACTIVE, [1, 5]⟩
    ((createMDT db0 uAlice bodyB 50 500 7).2) rfl

/-- Witness for C3: in the same creation, Bob and Carol (the matching
EXTERNAL users) each get exactly one PENDING invitation tied to their
first common specialty, and nobody else gets one. -/
theorem createMDT_matching_witness :
    ((⟨50, "Case B", 1, MDTStatus.ACTIVE, [1, 5]⟩ : MDT) ∈
        (createMDT db0 uAlice bodyB 50 500 7).2.mdts ∧
      (⟨50, "Case B", 1, MDTStatus.ACTIVE, [1, 5]⟩ : MDT).id = 50 ∧
      uAlice.id ∈ (⟨50, "Case B", 1, MDTStatus.ACTIVE, [1, 5]⟩ : MDT).memberIds) ∧
    (∀ u ∈ db0.users, matchesRequired bodyB.requiredSpecialties u = true →
      (((createMDT db0 uAlice bodyB 50 500 7).2.invitations.filter
          (fun i => i.mdtId = 50 ∧ i.receiverId = u.id)).length = 1 ∧
       (∀ i ∈ (createMDT db0 uAlice bodyB 50 500 7).2.invitations, i.mdtId = 50 →
          i.receiverId = u.id →
          (i.status = InvitationStatus.PENDING ∧
           i.specialtyId = u.specialties.find?
             (fun s => bodyB.requiredSpecialties.contains s))))) ∧
    (∀ u ∈ db0.users, matchesRequired bodyB.requiredSpecialties u = false →
      ((createMDT db0 uAlice bodyB 50 500 7).2.invitations.filter
        (fun i => i.mdtId = 50 ∧ i.receiverId = u.id)).length = 0) :=
  createMDT_matching db0 uAlice bodyB 50 500 7
    ⟨50, "Case B", 1, MDTStatus.ACTIVE, [1, 5]⟩
    ((createMDT db0 uAlice bodyB 50 500 7).2) (by decide) (by decide) rfl

end MediBridge
